import Mathlib

/-!
Shallow embedding of the modelScrappy review-acquisition pipeline
(`src/scraper.py`, `src/nlp.py`, `src/database.py`, `src/api.py`).

Python dicts for review records are modelled as structures; the
`sentiment` / `confidence` keys added by enrichment are `Option` fields
(`none` models the key being absent).  Machine floats carrying exact
decimal values (ratings, confidences) are modelled as `Rat`.  The
browser page is modelled as an environment giving, per incremental-load
iteration, the list of currently rendered review blocks.
-/

namespace ModelScrappy

/-- A review record as built by `GoogleMapsScraper.scrape` (scraper.py:329-336).
`sentiment` and `confidence` are absent (`none`) until `ReviewAnalyzer.analyze`
adds them (nlp.py:42-53). -/
structure Record where
  business_name : String
  username : String
  rating : Rat
  review_text : String
  source : String
  scraping_date : String
  sentiment : Option String
  confidence : Option Rat
deriving DecidableEq

/-- A rendered review block on the page, as seen by the element-level
extraction helpers of scraper.py. -/
structure Block where
  innerText : String
  ariaLabel : Option String
  starLabel : Option String
  contentSpan : Option String
deriving DecidableEq

/-! ### Character-level helpers (modelling Python str operations) -/

def nlChar : Char := Char.ofNat 10
def spChar : Char := Char.ofNat 32
def dotChar : Char := Char.ofNat 46
def commaChar : Char := Char.ofNat 44

/-- Python `s.split(sep)` for a single-character separator. -/
def splitOnChar (sep : Char) : List Char → List (List Char)
  | [] => [[]]
  | c :: rest =>
    let r := splitOnChar sep rest
    if c = sep then [] :: r
    else
      match r with
      | [] => [[c]]
      | g :: gs => (c :: g) :: gs

/-- Python `s.strip()`. -/
def trimChars (cs : List Char) : List Char :=
  ((cs.dropWhile Char.isWhitespace).reverse.dropWhile Char.isWhitespace).reverse

/-- Python `" ".join(ls)`. -/
def joinWithSpace : List String → List Char
  | [] => []
  | [s] => s.toList
  | s :: rest => s.toList ++ spChar :: joinWithSpace rest

/-- `\d+` span: leading digits and the remainder. -/
def spanDigits : List Char → List Char × List Char
  | [] => ([], [])
  | c :: cs =>
    if c.isDigit then
      let p := spanDigits cs
      (c :: p.1, p.2)
    else ([], c :: cs)

/-- Greedy match of `\d+(\.|,)?\d*` at the head (head is known to be a digit). -/
def numAt (cs : List Char) : List Char :=
  let p := spanDigits cs
  match p.2 with
  | [] => p.1
  | c :: rest =>
    if c = dotChar ∨ c = commaChar then p.1 ++ c :: (spanDigits rest).1
    else p.1

/-- Leftmost match of `re.search(r'(\d+(\.|,)?\d*)', s)` (scraper.py:387). -/
def findNum : List Char → Option (List Char)
  | [] => none
  | c :: cs => if c.isDigit then some (numAt (c :: cs)) else findNum cs

def natOfDigits (cs : List Char) : Nat :=
  cs.foldl (fun n c => 10 * n + (c.toNat - 48)) 0

/-- Python `float(val)` on a numeral of shape `digits [ '.' digits ]`. -/
def parseDec (cs : List Char) : Rat :=
  let p := spanDigits cs
  match p.2 with
  | [] => (natOfDigits p.1 : Rat)
  | _ :: rest =>
    let frac := (spanDigits rest).1
    (natOfDigits p.1 : Rat) + (natOfDigits frac : Rat) / ((10 : Rat) ^ frac.length)

/-! ### Field extraction (scraper.py:376-418) -/

/-- `GoogleMapsScraper._extract_username` (scraper.py:376-380):
`element.get_attribute("aria-label") or element.inner_text().split('\n')[0]`. -/
def extract_username (el : Block) : String :=
  match el.ariaLabel with
  | some a => if a = "" then String.mk ((splitOnChar nlChar el.innerText.toList).headD []) else a
  | none => String.mk ((splitOnChar nlChar el.innerText.toList).headD [])

/-- `GoogleMapsScraper._extract_rating` (scraper.py:382-393), applied to the
aria-label of the located star element (`none` models an absent star element). -/
def extract_rating (starLabel : Option String) : Rat :=
  match starLabel with
  | none => 0
  | some aria =>
    match findNum aria.toList with
    | none => 0
    | some numStr => parseDec (numStr.map (fun ch => if ch = commaChar then dotChar else ch))

/-- UI-chrome stoplist of `_extract_text` (scraper.py:408). -/
def ignoredPhrases : List String :=
  ["Me gusta", "Compartir", "Más", "Like", "Share", "More", "Responder",
   "Response", "Estrella", "star"]

/-- `GoogleMapsScraper._extract_text` (scraper.py:395-418). -/
def extract_text (el : Block) : String :=
  match el.contentSpan with
  | some s => s
  | none =>
    let lines :=
      (((splitOnChar nlChar el.innerText.toList).map (fun l => String.mk (trimChars l))).filter
        (fun l => l ≠ ""))
    let candidates := lines.filter (fun l => l ∉ ignoredPhrases ∧ 2 < l.length)
    match candidates with
    | [] => ""
    | c0 :: rest =>
      let name := extract_username el
      let cands := if c0 = name then rest else c0 :: rest
      String.mk (trimChars (joinWithSpace cands))

/-- `GoogleMapsScraper._extract_business_name` (scraper.py:204-214): the title
element's text, else the sentinel. -/
def extract_business_name (title : Option String) : String :=
  match title with
  | some t => t
  | none => "Unknown Business"

/-! ### The incremental-loading scrape loop (scraper.py:296-374) -/

/-- The mutable scraper object: `__init__` state that survives across `scrape`
calls (scraper.py:17-24). -/
structure Scraper where
  url : String
  max_reviews : Nat
  reviews_data : List Record
deriving DecidableEq

def mkScraper (url : String) (max_reviews : Nat) : Scraper :=
  ⟨url, max_reviews, []⟩

/-- The page environment one `scrape` call interacts with: whether navigation
crashes, the title element, whether the review-list container materializes,
and the blocks rendered at each incremental-load iteration.  `hsh` models
Python `hash` on the block's rendered text. -/
structure PageEnv where
  navCrash : Bool
  title : Option String
  containerAppears : Bool
  page : Nat → List Block
  hsh : String → Int
  date : String

/-- Per-run scrape configuration derived from the environment. -/
structure ScrapeCfg where
  hsh : String → Int
  business_name : String
  date : String
  maxR : Nat
  page : Nat → List Block

/-- `max_retries` (scraper.py:300). -/
def max_retries : Nat := 5

/-- Field parsing for one block (scraper.py:324-336). -/
def parseBlock (C : ScrapeCfg) (el : Block) : Record :=
  { business_name := C.business_name
    username := extract_username el
    rating := extract_rating el.starLabel
    review_text := extract_text el
    source := "Google Maps"
    scraping_date := C.date
    sentiment := none
    confidence := none }

/-- The inner `for el in elements` body (scraper.py:310-340): per rendered
block, stop at the limit, skip blocks whose text hash was already seen, else
record the hash and append the parsed record. -/
def processElems (C : ScrapeCfg) : List Block → List Record → List Int → List Record × List Int
  | [], recs, seen => (recs, seen)
  | el :: rest, recs, seen =>
    if C.maxR ≤ recs.length then (recs, seen)
    else
      let h := C.hsh el.innerText
      if h ∈ seen then processElems C rest recs seen
      else processElems C rest (recs ++ [parseBlock C el]) (seen ++ [h])

/-- Result of the scroll loop, instrumented with the dedup set, the number of
`while` iterations executed, and whether the loop exited through one of its
own conditions (rather than by exhausting the fuel bound). -/
structure LoopOut where
  recs : List Record
  seen : List Int
  iters : Nat
  completed : Bool
deriving DecidableEq

/-- The `while len(self.reviews_data) < self.max_reviews` scroll loop
(scraper.py:305-366), fuel-indexed.  Per iteration: enumerate the rendered
blocks, process them, then either count a stagnant iteration (breaking once
`retries` reaches `max_retries`) or record the new count and reset `retries`. -/
def scrapeLoopF (C : ScrapeCfg) : Nat → Nat → List Record → List Int → Nat → Nat → LoopOut
  | 0, _, recs, seen, _, _ => ⟨recs, seen, 0, false⟩
  | fuel + 1, i, recs, seen, last_count, retries =>
    if recs.length < C.maxR then
      let p := processElems C (C.page i) recs seen
      if p.1.length = last_count then
        if max_retries ≤ retries + 1 then ⟨p.1, p.2, 1, true⟩
        else
          let r := scrapeLoopF C fuel (i + 1) p.1 p.2 last_count (retries + 1)
          ⟨r.recs, r.seen, r.iters + 1, r.completed⟩
      else
        let r := scrapeLoopF C fuel (i + 1) p.1 p.2 p.1.length 0
        ⟨r.recs, r.seen, r.iters + 1, r.completed⟩
    else ⟨recs, seen, 0, true⟩

/-- Fuel that the termination analysis proves sufficient for every page. -/
def fuelFor (m : Nat) : Nat := 7 * m + 7

def mkCfg (env : PageEnv) (s : Scraper) : ScrapeCfg :=
  ⟨env.hsh, extract_business_name env.title, env.date, s.max_reviews, env.page⟩

/-- `GoogleMapsScraper.scrape` with `return_data=True` (scraper.py:216-374):
on a navigation crash the exception handler returns the accumulated
`reviews_data` (scraper.py:368-374); if the review container never appears the
call returns a fresh empty list (scraper.py:290-294); otherwise the scroll
loop runs starting from the instance's persisted `reviews_data` with a fresh
`processed_ids` set, and the grown `reviews_data` is returned. -/
def scrape (s : Scraper) (env : PageEnv) : List Record × Scraper :=
  if env.navCrash then (s.reviews_data, s)
  else if env.containerAppears = false then ([], s)
  else
    let out := scrapeLoopF (mkCfg env s) (fuelFor s.max_reviews) 0 s.reviews_data [] 0 0
    (out.recs, { s with reviews_data := out.recs })

/-! ### Sentiment enrichment (`ReviewAnalyzer.analyze`, nlp.py:15-65) -/

/-- The three-bucket sentiment summary dict `{"POS": 0, "NEG": 0, "NEU": 0}`
(nlp.py:21). -/
structure Summary where
  POS : Nat
  NEG : Nat
  NEU : Nat
deriving DecidableEq

/-- `if sentiment in summary: summary[sentiment] += 1` (nlp.py:45-46). -/
def bumpSummary (s : Summary) (label : String) : Summary :=
  if label = "POS" then { s with POS := s.POS + 1 }
  else if label = "NEG" then { s with NEG := s.NEG + 1 }
  else if label = "NEU" then { s with NEU := s.NEU + 1 }
  else s

/-- Python `round(q, d)`. -/
def roundTo (d : Nat) (q : Rat) : Rat :=
  ((round (q * (10 : Rat) ^ d) : Int) : Rat) / (10 : Rat) ^ d

/-- The black-box sentiment model: `self.analyzer.predict(text)` yielding the
output label and the top probability, or raising (nlp.py:38-40). -/
def SentimentModel : Type := String → Except Unit (String × Rat)

/-- Loop state of `analyze`: `results`, `summary`, `total_rating`,
`valid_ratings` (nlp.py:20-23), plus an instrumentation counter of model
invocations. -/
structure AnalyzeAcc where
  results : List Record
  summary : Summary
  total_rating : Rat
  valid_ratings : Nat
  calls : Nat

/-- One iteration of the `for r in reviews` loop (nlp.py:27-56). -/
def analyzeStep (predict : SentimentModel) (acc : AnalyzeAcc) (r : Record) : AnalyzeAcc :=
  let acc1 :=
    if r.rating ≠ 0 then
      { acc with total_rating := acc.total_rating + r.rating
                 valid_ratings := acc.valid_ratings + 1 }
    else acc
  if 2 < r.review_text.length then
    match predict r.review_text with
    | Except.ok pr =>
      let r2 := { r with sentiment := some pr.1, confidence := some (roundTo 4 pr.2) }
      { acc1 with results := acc1.results ++ [r2]
                  summary := bumpSummary acc1.summary pr.1
                  calls := acc1.calls + 1 }
    | Except.error _ =>
      let r2 := { r with sentiment := some "ERROR", confidence := some 0 }
      { acc1 with results := acc1.results ++ [r2], calls := acc1.calls + 1 }
  else
    let r2 := { r with sentiment := some "NEU", confidence := some 1 }
    { acc1 with results := acc1.results ++ [r2]
                summary := bumpSummary acc1.summary "NEU" }

/-- The value returned by `ReviewAnalyzer.analyze` (nlp.py:60-65). -/
structure NlpResult where
  reviews : List Record
  sentiment_summary : Summary
  average_rating : Rat
  total_reviews : Nat
deriving DecidableEq

/-- `ReviewAnalyzer.analyze` (nlp.py:15-65), paired with the number of model
invocations performed. -/
def analyze (predict : SentimentModel) (reviews : List Record) : NlpResult × Nat :=
  let acc := reviews.foldl (analyzeStep predict) ⟨[], ⟨0, 0, 0⟩, 0, 0, 0⟩
  (⟨acc.results, acc.summary,
    if 0 < acc.valid_ratings then roundTo 2 (acc.total_rating / (acc.valid_ratings : Rat)) else 0,
    reviews.length⟩, acc.calls)

/-! ### Cache store (`database.py`) -/

/-- The API response dict (api.py:158-165).  `cached` and `fallback_mode`
model the serving flags merged over the payload; a stored payload always has
`cached = false` and no `fallback_mode` key (modelled `false`). -/
structure Response where
  business_name : String
  total_reviews : Nat
  sentiment_summary : Summary
  average_rating : Rat
  reviews : List Record
  cached : Bool
  fallback_mode : Bool
deriving DecidableEq

/-- One row of the `analysis_cache` table (database.py:24-41). -/
structure CacheEntry where
  url_hash : String
  maps_url : String
  business_name : String
  analysis_json : Response
  created_at : Nat
  updated_at : Nat
deriving DecidableEq

/-- The table, in insertion order. -/
abbrev DB := List CacheEntry

/-- `get_cached_analysis` (database.py:61-63): the first row whose `url_hash`
matches. -/
def get_cached_analysis (db : DB) (url_hash : String) : Option CacheEntry :=
  db.find? (fun e => e.url_hash == url_hash)

/-- In-place mutation of the first matching row (database.py:69-73). -/
def updateFirst (url_hash business_name : String) (analysis_data : Response) (now : Nat) :
    DB → DB
  | [] => []
  | e :: rest =>
    if e.url_hash == url_hash then
      { e with analysis_json := analysis_data, business_name := business_name,
               updated_at := now } :: rest
    else e :: updateFirst url_hash business_name analysis_data now rest

/-- `save_analysis` (database.py:65-90): update the existing row for the hash,
else insert a fresh row whose `created_at` and `updated_at` default to now. -/
def save_analysis (db : DB) (url_hash maps_url business_name : String)
    (analysis_data : Response) (now : Nat) : DB :=
  match get_cached_analysis db url_hash with
  | some _ => updateFirst url_hash business_name analysis_data now db
  | none =>
    db ++ [{ url_hash := url_hash, maps_url := maps_url, business_name := business_name,
             analysis_json := analysis_data, created_at := now, updated_at := now }]

/-! ### The `/analyze` pipeline (api.py:114-184) -/

/-- The request body (api.py:44-47). -/
structure AnalysisRequest where
  maps_url : String
  forceUpdate : Bool
  limit : Nat

/-- The terminal not-found failure (`HTTPException(status_code=404)`,
api.py:148). -/
inductive ApiError where
  | notFound
deriving DecidableEq

deriving instance DecidableEq for Except

/-- What one `/analyze` call produces: the HTTP result, the database after the
call, and how many times the scraper collaborator was invoked. -/
structure PipelineOut where
  result : Except ApiError Response
  db : DB
  scrapeCalls : Nat
deriving DecidableEq

/-- The active `analyze_reviews` endpoint (api.py:114-184).  `md5h` models
`hashlib.md5(url).hexdigest()` as an abstract key-derivation function. -/
def analyze_reviews (md5h : String → String) (predict : SentimentModel) (env : PageEnv)
    (db : DB) (req : AnalysisRequest) (now : Nat) : PipelineOut :=
  let url_hash := md5h req.maps_url
  match (if req.forceUpdate then none else get_cached_analysis db url_hash) with
  | some cached_entry =>
    ⟨Except.ok { cached_entry.analysis_json with cached := true }, db, 0⟩
  | none =>
    let raw_reviews := (scrape (mkScraper req.maps_url req.limit) env).1
    if raw_reviews.isEmpty then
      match get_cached_analysis db url_hash with
      | some fallback_entry =>
        ⟨Except.ok { fallback_entry.analysis_json with cached := true, fallback_mode := true },
         db, 1⟩
      | none => ⟨Except.error ApiError.notFound, db, 1⟩
    else
      let analysis_result := (analyze predict raw_reviews).1
      let business_name := ((raw_reviews.head?).map (fun r => r.business_name)).getD "Unknown"
      let final_response : Response :=
        ⟨business_name, analysis_result.total_reviews, analysis_result.sentiment_summary,
         analysis_result.average_rating, analysis_result.reviews, false, false⟩
      ⟨Except.ok final_response,
       save_analysis db url_hash req.maps_url business_name final_response now, 1⟩

/-! ### Invariants of the extraction loop -/

lemma processElems_extends (C : ScrapeCfg) :
    ∀ (els : List Block) (recs : List Record) (seen : List Int),
      ∃ t u, processElems C els recs seen = (recs ++ t, seen ++ u) := by
  intro els
  induction els with
  | nil =>
    intro recs seen
    exact ⟨[], [], by simp [processElems]⟩
  | cons el rest ih =>
    intro recs seen
    by_cases h1 : C.maxR ≤ recs.length
    · exact ⟨[], [], by simp [processElems, h1]⟩
    · by_cases h2 : C.hsh el.innerText ∈ seen
      · obtain ⟨t, u, ht⟩ := ih recs seen
        exact ⟨t, u, by simp [processElems, h1, h2, ht]⟩
      · obtain ⟨t, u, ht⟩ := ih (recs ++ [parseBlock C el]) (seen ++ [C.hsh el.innerText])
        refine ⟨parseBlock C el :: t, C.hsh el.innerText :: u, ?_⟩
        simp only [processElems, if_neg h1, if_neg h2, ht]
        simp

lemma processElems_le_length (C : ScrapeCfg) (els : List Block) (recs : List Record)
    (seen : List Int) : recs.length ≤ (processElems C els recs seen).1.length := by
  obtain ⟨t, u, ht⟩ := processElems_extends C els recs seen
  simp [ht]

lemma processElems_length_le (C : ScrapeCfg) :
    ∀ (els : List Block) (recs : List Record) (seen : List Int),
      recs.length ≤ C.maxR → (processElems C els recs seen).1.length ≤ C.maxR := by
  intro els
  induction els with
  | nil => intro recs seen h; simpa [processElems] using h
  | cons el rest ih =>
    intro recs seen h
    by_cases h1 : C.maxR ≤ recs.length
    · simpa [processElems, h1] using h
    · by_cases h2 : C.hsh el.innerText ∈ seen
      · simp only [processElems, if_neg h1, if_pos h2]
        exact ih recs seen h
      · simp only [processElems, if_neg h1, if_neg h2]
        exact ih (recs ++ [parseBlock C el]) (seen ++ [C.hsh el.innerText])
          (by simp; omega)

lemma processElems_seen (C : ScrapeCfg) :
    ∀ (els : List Block) (recs : List Record) (seen : List Int),
      seen.Nodup →
      (processElems C els recs seen).2.Nodup ∧
        (processElems C els recs seen).1.length + seen.length =
          (processElems C els recs seen).2.length + recs.length := by
  intro els
  induction els with
  | nil => intro recs seen h; simp [processElems, h]; omega
  | cons el rest ih =>
    intro recs seen h
    by_cases h1 : C.maxR ≤ recs.length
    · simp [processElems, h1, h]; omega
    · by_cases h2 : C.hsh el.innerText ∈ seen
      · simp only [processElems, if_neg h1, if_pos h2]
        exact ih recs seen h
      · simp only [processElems, if_neg h1, if_neg h2]
        have hnd : (seen ++ [C.hsh el.innerText]).Nodup := by
          simp [List.nodup_append, h, h2]
        have := ih (recs ++ [parseBlock C el]) (seen ++ [C.hsh el.innerText]) hnd
        refine ⟨this.1, ?_⟩
        have h3 := this.2
        simp only [List.length_append, List.length_cons, List.length_nil] at h3 ⊢
        omega

lemma processElems_skip (C : ScrapeCfg) (el : Block) (rest : List Block)
    (recs : List Record) (seen : List Int) (h : C.hsh el.innerText ∈ seen) :
    processElems C (el :: rest) recs seen = processElems C rest recs seen := by
  by_cases h1 : C.maxR ≤ recs.length
  · cases rest with
    | nil => simp [processElems, h1]
    | cons b bs => simp [processElems, h1]
  · simp [processElems, h1, h]

/-- Ranking function of the scroll loop: it strictly decreases at every
iteration, which is what bounds the loop even on an inexhaustible page. -/
def loopMeasure (maxR recsLen last_count retries : Nat) : Nat :=
  (maxR - recsLen) * 7 + (5 - retries) + (if last_count = recsLen then 0 else 1)

lemma scrapeLoopF_completes (C : ScrapeCfg) :
    ∀ (fuel i : Nat) (recs : List Record) (seen : List Int) (last_count retries : Nat),
      retries < 5 → (retries = 0 ∨ last_count = recs.length) →
      loopMeasure C.maxR recs.length last_count retries < fuel →
      (scrapeLoopF C fuel i recs seen last_count retries).completed = true ∧
        (scrapeLoopF C fuel i recs seen last_count retries).iters ≤
          loopMeasure C.maxR recs.length last_count retries := by
  intro fuel
  induction fuel with
  | zero =>
    intro i recs seen lc rt _ _ h3
    exact absurd h3 (Nat.not_lt_zero _)
  | succ f ih =>
    intro i recs seen lc rt h1 h2 h3
    by_cases hg : recs.length < C.maxR
    · have hmono := processElems_le_length C (C.page i) recs seen
      by_cases hst : (processElems C (C.page i) recs seen).1.length = lc
      · by_cases hbr : max_retries ≤ rt + 1
        · refine ⟨by simp [scrapeLoopF, hg, hst, hbr], ?_⟩
          simp only [scrapeLoopF, if_pos hg, if_pos hst, if_pos hbr]
          unfold loopMeasure
          split <;> omega
        · have h5 : rt + 1 < 5 := by
            simp only [max_retries, not_le] at hbr
            omega
          have hMlt :
              loopMeasure C.maxR (processElems C (C.page i) recs seen).1.length lc (rt + 1) <
                loopMeasure C.maxR recs.length lc rt := by
            unfold loopMeasure
            rw [if_pos hst.symm]
            split <;> omega
          have hrec := ih (i + 1) (processElems C (C.page i) recs seen).1
            (processElems C (C.page i) recs seen).2 lc (rt + 1) h5 (Or.inr hst.symm)
            (by omega)
          simp only [scrapeLoopF, if_pos hg, if_pos hst, if_neg hbr]
          refine ⟨hrec.1, ?_⟩
          have h6 := hrec.2
          omega
      · have hJ : rt = 0 ∨ (processElems C (C.page i) recs seen).1.length = recs.length ∨
            recs.length < (processElems C (C.page i) recs seen).1.length := by
          omega
        have hMlt :
            loopMeasure C.maxR (processElems C (C.page i) recs seen).1.length
                (processElems C (C.page i) recs seen).1.length 0 <
              loopMeasure C.maxR recs.length lc rt := by
          unfold loopMeasure
          rw [if_pos rfl]
          rcases h2 with h2 | h2
          · rcases hJ with hJ | hJ | hJ
            · -- retries = 0 at entry
              by_cases hsame : (processElems C (C.page i) recs seen).1.length = recs.length
              · rw [hsame]
                split <;> omega
              · have : recs.length < (processElems C (C.page i) recs seen).1.length := by omega
                split <;>
                  · have h7 : C.maxR - (processElems C (C.page i) recs seen).1.length + 1 ≤
                        C.maxR - recs.length := by omega
                    omega
            · -- grew-length info already covered by hsame analysis above
              rw [hJ] at hst
              rw [hJ]
              split <;> omega
            · have h7 : C.maxR - (processElems C (C.page i) recs seen).1.length + 1 ≤
                  C.maxR - recs.length := by omega
              split <;> omega
          · -- last_count = recs.length at entry, so a different count means growth
            have hgrow : recs.length < (processElems C (C.page i) recs seen).1.length := by
              omega
            have h7 : C.maxR - (processElems C (C.page i) recs seen).1.length + 1 ≤
                C.maxR - recs.length := by omega
            split <;> omega
        have hrec := ih (i + 1) (processElems C (C.page i) recs seen).1
          (processElems C (C.page i) recs seen).2
          (processElems C (C.page i) recs seen).1.length 0 (by omega) (Or.inl rfl)
          (by omega)
        simp only [scrapeLoopF, if_pos hg, if_neg hst]
        refine ⟨hrec.1, ?_⟩
        have h6 := hrec.2
        omega
    · refine ⟨by simp [scrapeLoopF, hg], ?_⟩
      simp only [scrapeLoopF, if_neg hg]
      exact Nat.zero_le _

lemma scrapeLoopF_extends (C : ScrapeCfg) :
    ∀ (fuel i : Nat) (recs : List Record) (seen : List Int) (last_count retries : Nat),
      ∃ t, (scrapeLoopF C fuel i recs seen last_count retries).recs = recs ++ t := by
  intro fuel
  induction fuel with
  | zero => intro i recs seen lc rt; exact ⟨[], by simp [scrapeLoopF]⟩
  | succ f ih =>
    intro i recs seen lc rt
    by_cases hg : recs.length < C.maxR
    · obtain ⟨t, u, hpe⟩ := processElems_extends C (C.page i) recs seen
      by_cases hst : (processElems C (C.page i) recs seen).1.length = lc
      · by_cases hbr : max_retries ≤ rt + 1
        · refine ⟨t, ?_⟩
          simp only [scrapeLoopF, if_pos hg, if_pos hst, if_pos hbr]
          simp [hpe]
        · obtain ⟨t2, ht2⟩ := ih (i + 1) (processElems C (C.page i) recs seen).1
            (processElems C (C.page i) recs seen).2 lc (rt + 1)
          refine ⟨t ++ t2, ?_⟩
          simp only [scrapeLoopF, if_pos hg, if_pos hst, if_neg hbr]
          rw [ht2, hpe]
          simp
      · obtain ⟨t2, ht2⟩ := ih (i + 1) (processElems C (C.page i) recs seen).1
          (processElems C (C.page i) recs seen).2
          (processElems C (C.page i) recs seen).1.length 0
        refine ⟨t ++ t2, ?_⟩
        simp only [scrapeLoopF, if_pos hg, if_neg hst]
        rw [ht2, hpe]
        simp
    · exact ⟨[], by simp [scrapeLoopF, hg]⟩

lemma scrapeLoopF_length_le (C : ScrapeCfg) :
    ∀ (fuel i : Nat) (recs : List Record) (seen : List Int) (last_count retries : Nat),
      recs.length ≤ C.maxR →
      (scrapeLoopF C fuel i recs seen last_count retries).recs.length ≤ C.maxR := by
  intro fuel
  induction fuel with
  | zero => intro i recs seen lc rt h; simpa [scrapeLoopF] using h
  | succ f ih =>
    intro i recs seen lc rt h
    by_cases hg : recs.length < C.maxR
    · have hlen := processElems_length_le C (C.page i) recs seen h
      by_cases hst : (processElems C (C.page i) recs seen).1.length = lc
      · by_cases hbr : max_retries ≤ rt + 1
        · simpa [scrapeLoopF, hg, hst, hbr] using hlen
        · simp only [scrapeLoopF, if_pos hg, if_pos hst, if_neg hbr]
          exact ih (i + 1) _ _ lc (rt + 1) hlen
      · simp only [scrapeLoopF, if_pos hg, if_neg hst]
        exact ih (i + 1) _ _ _ 0 hlen
    · simpa [scrapeLoopF, hg] using h

lemma scrapeLoopF_seen (C : ScrapeCfg) :
    ∀ (fuel i : Nat) (recs : List Record) (seen : List Int) (last_count retries : Nat),
      seen.Nodup →
      (scrapeLoopF C fuel i recs seen last_count retries).seen.Nodup ∧
        (scrapeLoopF C fuel i recs seen last_count retries).seen.length + recs.length =
          (scrapeLoopF C fuel i recs seen last_count retries).recs.length + seen.length := by
  intro fuel
  induction fuel with
  | zero => intro i recs seen lc rt h; simp [scrapeLoopF, h]; omega
  | succ f ih =>
    intro i recs seen lc rt h
    by_cases hg : recs.length < C.maxR
    · have hpe := processElems_seen C (C.page i) recs seen h
      by_cases hst : (processElems C (C.page i) recs seen).1.length = lc
      · by_cases hbr : max_retries ≤ rt + 1
        · simp only [scrapeLoopF, if_pos hg, if_pos hst, if_pos hbr]
          exact ⟨hpe.1, by have := hpe.2; omega⟩
        · simp only [scrapeLoopF, if_pos hg, if_pos hst, if_neg hbr]
          have hrec := ih (i + 1) (processElems C (C.page i) recs seen).1
            (processElems C (C.page i) recs seen).2 lc (rt + 1) hpe.1
          exact ⟨hrec.1, by have h2 := hrec.2; have h3 := hpe.2; omega⟩
      · simp only [scrapeLoopF, if_pos hg, if_neg hst]
        have hrec := ih (i + 1) (processElems C (C.page i) recs seen).1
          (processElems C (C.page i) recs seen).2
          (processElems C (C.page i) recs seen).1.length 0 hpe.1
        exact ⟨hrec.1, by have h2 := hrec.2; have h3 := hpe.2; omega⟩
    · simp [scrapeLoopF, hg, h]
      omega

lemma scrapeLoopF_stop (C : ScrapeCfg) (fuel i : Nat) (recs : List Record) (seen : List Int)
    (last_count retries : Nat) (h : C.maxR ≤ recs.length) :
    (scrapeLoopF C (fuel + 1) i recs seen last_count retries).recs = recs := by
  simp [scrapeLoopF, Nat.not_lt.mpr h]

/-! ### Invariants of the enrichment step -/

/-- The bucket of `summary` addressed by a label that is one of the three
keys. -/
def summaryCount (lab : String) (s : Summary) : Nat :=
  if lab = "POS" then s.POS else if lab = "NEG" then s.NEG else s.NEU

lemma summaryCount_bump (lab x : String)
    (hlab : lab = "POS" ∨ lab = "NEG" ∨ lab = "NEU") (s : Summary) :
    summaryCount lab (bumpSummary s x) =
      summaryCount lab s + (if x = lab then 1 else 0) := by
  rcases hlab with h | h | h <;> subst h <;>
    · unfold summaryCount bumpSummary
      split_ifs <;> simp_all

/-- The extraction fields preserved by enrichment. -/
def SameCore (a b : Record) : Prop :=
  b.business_name = a.business_name ∧ b.username = a.username ∧ b.rating = a.rating ∧
    b.review_text = a.review_text ∧ b.source = a.source ∧ b.scraping_date = a.scraping_date

/-- One `analyze` loop iteration appends exactly one enriched record, keeps
every extraction field of the input record, and bumps exactly the summary
bucket matching the new record's sentiment (no bucket for `ERROR` or any
unknown label). -/
lemma analyzeStep_spec (predict : SentimentModel) (acc : AnalyzeAcc) (r : Record) :
    ∃ r2, (analyzeStep predict acc r).results = acc.results ++ [r2] ∧ SameCore r r2 ∧
      r2.sentiment ≠ none ∧
      ∀ lab, (lab = "POS" ∨ lab = "NEG" ∨ lab = "NEU") →
        summaryCount lab (analyzeStep predict acc r).summary =
          summaryCount lab acc.summary + (if r2.sentiment = some lab then 1 else 0) := by
  have hacc1 : ∀ (a : AnalyzeAcc),
      ((if r.rating ≠ 0 then
          { a with total_rating := a.total_rating + r.rating
                   valid_ratings := a.valid_ratings + 1 }
        else a) : AnalyzeAcc).results = a.results ∧
      ((if r.rating ≠ 0 then
          { a with total_rating := a.total_rating + r.rating
                   valid_ratings := a.valid_ratings + 1 }
        else a) : AnalyzeAcc).summary = a.summary := by
    intro a
    split <;> exact ⟨rfl, rfl⟩
  by_cases hlen : 2 < r.review_text.length
  · cases hpred : predict r.review_text with
    | ok pr =>
      refine ⟨{ r with sentiment := some pr.1, confidence := some (roundTo 4 pr.2) },
        ?_, ⟨rfl, rfl, rfl, rfl, rfl, rfl⟩, by simp, ?_⟩
      · simp only [analyzeStep, if_pos hlen, hpred, (hacc1 acc).1]
      · intro lab hlab
        simp only [analyzeStep, if_pos hlen, hpred, (hacc1 acc).2,
          summaryCount_bump lab pr.1 hlab, Option.some.injEq]
    | error e =>
      refine ⟨{ r with sentiment := some "ERROR", confidence := some 0 },
        ?_, ⟨rfl, rfl, rfl, rfl, rfl, rfl⟩, by simp, ?_⟩
      · simp only [analyzeStep, if_pos hlen, hpred, (hacc1 acc).1]
      · intro lab hlab
        simp only [analyzeStep, if_pos hlen, hpred, (hacc1 acc).2, Option.some.injEq]
        rcases hlab with h | h | h <;> subst h <;>
          simp [show ("ERROR" : String) ≠ "POS" by decide,
            show ("ERROR" : String) ≠ "NEG" by decide,
            show ("ERROR" : String) ≠ "NEU" by decide]
  · refine ⟨{ r with sentiment := some "NEU", confidence := some 1 },
      ?_, ⟨rfl, rfl, rfl, rfl, rfl, rfl⟩, by simp, ?_⟩
    · simp only [analyzeStep, if_neg hlen, (hacc1 acc).1]
    · intro lab hlab
      simp only [analyzeStep, if_neg hlen, (hacc1 acc).2,
        summaryCount_bump lab "NEU" hlab, Option.some.injEq]

/-- Fold-level accumulation of `analyzeStep_spec`. -/
lemma analyze_foldl_spec (predict : SentimentModel) :
    ∀ (l : List Record) (acc : AnalyzeAcc),
      (∃ t, (l.foldl (analyzeStep predict) acc).results = acc.results ++ t ∧
        List.Forall₂ SameCore l t) ∧
      ∀ lab, (lab = "POS" ∨ lab = "NEG" ∨ lab = "NEU") →
        summaryCount lab (l.foldl (analyzeStep predict) acc).summary +
            (acc.results.countP (fun x => x.sentiment == some lab)) =
          summaryCount lab acc.summary +
            ((l.foldl (analyzeStep predict) acc).results.countP
              (fun x => x.sentiment == some lab)) := by
  intro l
  induction l with
  | nil =>
    intro acc
    exact ⟨⟨[], by simp, List.Forall₂.nil⟩, fun lab _ => by simp⟩
  | cons r rs ih =>
    intro acc
    obtain ⟨r2, hres, hcore, _, hbuck⟩ := analyzeStep_spec predict acc r
    obtain ⟨⟨t, ht, hf⟩, hsum⟩ := ih (analyzeStep predict acc r)
    constructor
    · refine ⟨r2 :: t, ?_, List.Forall₂.cons hcore hf⟩
      simp only [List.foldl_cons] at *
      rw [ht, hres]
      simp
    · intro lab hlab
      have h1 := hsum lab hlab
      have h2 := hbuck lab hlab
      simp only [List.foldl_cons] at *
      rw [hres] at h1
      simp only [List.countP_append, List.countP_cons, List.countP_nil] at h1
      by_cases hmatch : r2.sentiment = some lab
      · have h4 : (r2.sentiment == some lab) = true := beq_iff_eq.mpr hmatch
        rw [if_pos hmatch] at h2
        rw [h4] at h1
        simp only [if_true, eq_self_iff_true] at h1
        omega
      · have h4 : (r2.sentiment == some lab) = false := beq_eq_false_iff_ne.mpr hmatch
        rw [if_neg hmatch] at h2
        rw [h4] at h1
        simp only [Bool.false_eq_true, if_false] at h1
        omega

/-! ### Invariants of the cache store -/

lemma get_updateFirst (k b : String) (p : Response) (now : Nat) :
    ∀ (db : DB) (e0 : CacheEntry), get_cached_analysis db k = some e0 →
      get_cached_analysis (updateFirst k b p now db) k =
        some { e0 with analysis_json := p, business_name := b, updated_at := now } := by
  intro db
  induction db with
  | nil => intro e0 h; simp [get_cached_analysis] at h
  | cons e rest ih =>
    intro e0 h
    by_cases hk : e.url_hash == k
    · have he : e = e0 := by
        simp only [get_cached_analysis, List.find?_cons, hk] at h
        exact Option.some_injective _ h
      subst he
      simp only [updateFirst, if_pos hk, get_cached_analysis, List.find?_cons]
      simp only [hk]
    · have h2 : get_cached_analysis rest k = some e0 := by
        simp only [get_cached_analysis, List.find?_cons] at h
        simpa [hk] using h
      have h3 := ih e0 h2
      simp only [updateFirst, get_cached_analysis] at h3 ⊢
      simp [hk, h3]

lemma updateFirst_keys (k b : String) (p : Response) (now : Nat) :
    ∀ db : DB, (updateFirst k b p now db).map (fun e => e.url_hash) =
      db.map (fun e => e.url_hash) := by
  intro db
  induction db with
  | nil => rfl
  | cons e rest ih =>
    by_cases hk : e.url_hash == k
    · simp [updateFirst, hk]
    · simp [updateFirst, hk, ih]

lemma get_cached_append_none (db : DB) (e : CacheEntry) (k : String)
    (h : get_cached_analysis db k = none) :
    get_cached_analysis (db ++ [e]) k = if e.url_hash == k then some e else none := by
  induction db with
  | nil => cases hk : (e.url_hash == k) <;> simp [get_cached_analysis, hk]
  | cons e1 rest ih =>
    by_cases hk : e1.url_hash == k
    · simp only [get_cached_analysis, List.find?_cons, hk] at h
      exact absurd h (by simp)
    · have hkf : (e1.url_hash == k) = false := by
        cases hb : (e1.url_hash == k) <;> simp_all
      have h2 : get_cached_analysis rest k = none := by
        simpa only [get_cached_analysis, List.find?_cons, hkf] using h
      have h3 := ih h2
      simp only [get_cached_analysis, List.cons_append, List.find?_cons, hkf] at h3 ⊢
      exact h3

/-- After an upsert, lookup of the key finds a row carrying the new payload
and the new `updated_at`. -/
lemma get_save_analysis (db : DB) (k m b : String) (p : Response) (t : Nat) :
    ∃ e, get_cached_analysis (save_analysis db k m b p t) k = some e ∧
      e.analysis_json = p ∧ e.updated_at = t := by
  unfold save_analysis
  cases hget : get_cached_analysis db k with
  | some e0 =>
    exact ⟨{ e0 with analysis_json := p, business_name := b, updated_at := t },
      get_updateFirst k b p t db e0 hget, rfl, rfl⟩
  | none =>
    refine ⟨⟨k, m, b, p, t, t⟩, ?_, rfl, rfl⟩
    rw [get_cached_append_none db _ k hget]
    simp

/-- An upsert never creates a second row for an existing key: the `url_hash`
column stays duplicate-free. -/
lemma save_analysis_nodup (db : DB) (k m b : String) (p : Response) (t : Nat)
    (h : (db.map (fun e => e.url_hash)).Nodup) :
    ((save_analysis db k m b p t).map (fun e => e.url_hash)).Nodup := by
  unfold save_analysis
  cases hget : get_cached_analysis db k with
  | some e0 => rw [updateFirst_keys]; exact h
  | none =>
    have hk : k ∉ db.map (fun e => e.url_hash) := by
      intro hmem
      obtain ⟨e, hmem2, hke⟩ := List.mem_map.mp hmem
      have := List.find?_eq_none.mp hget e hmem2
      simp [hke] at this
    simp only [List.map_append, List.map_cons, List.map_nil]
    simp [List.nodup_append, h, hk]

/-! ### Remaining helper lemmas and concrete sample data -/

lemma findNum_eq_none (cs : List Char) (h : ∀ c ∈ cs, c.isDigit = false) :
    findNum cs = none := by
  induction cs with
  | nil => rfl
  | cons c rest ih =>
    have hc : c.isDigit = false := h c (by simp)
    simp only [findNum, hc, Bool.false_eq_true, if_false]
    exact ih (fun x hx => h x (by simp [hx]))

lemma analyzeStep_short (predict : SentimentModel) (acc : AnalyzeAcc) (r : Record)
    (h : ¬ 2 < r.review_text.length) :
    (analyzeStep predict acc r).results =
        acc.results ++ [{ r with sentiment := some "NEU", confidence := some 1 }] ∧
      (analyzeStep predict acc r).calls = acc.calls ∧
      (analyzeStep predict acc r).summary = bumpSummary acc.summary "NEU" := by
  simp only [analyzeStep, if_neg h]
  refine ⟨?_, ?_, ?_⟩ <;> (split <;> rfl)

lemma analyzeStep_error (predict : SentimentModel) (acc : AnalyzeAcc) (r : Record) (e : Unit)
    (h : 2 < r.review_text.length) (hp : predict r.review_text = Except.error e) :
    (analyzeStep predict acc r).results =
        acc.results ++ [{ r with sentiment := some "ERROR", confidence := some 0 }] ∧
      (analyzeStep predict acc r).calls = acc.calls + 1 ∧
      (analyzeStep predict acc r).summary = acc.summary := by
  simp only [analyzeStep, if_pos h, hp]
  refine ⟨?_, ?_, ?_⟩ <;> (split <;> rfl)

/-- A concrete rendered block, environment and records used to instantiate the
universally quantified theorems below at explicit inputs. -/
def sampleBlock : Block := ⟨"hola mundo", some "Ana", some "5 estrellas", some "texto"⟩

def sampleEnv : PageEnv :=
  ⟨false, some "B", true, fun _ => [sampleBlock], fun s => (s.length : Int), "d"⟩

def sampleEnvNoPanel : PageEnv :=
  ⟨false, some "B", false, fun _ => [], fun s => (s.length : Int), "d"⟩

def sampleRecord : Record := ⟨"B", "Ana", 5, "texto", "Google Maps", "d", none, none⟩

def shortRecord : Record := ⟨"B", "Ana", 5, "", "Google Maps", "d", none, none⟩

def longRecord : Record := ⟨"B", "Ana", 5, "hola", "Google Maps", "d", none, none⟩

def sampleResponse : Response := ⟨"B", 1, ⟨1, 0, 0⟩, 5, [sampleRecord], false, false⟩

def sampleResponse2 : Response := ⟨"B", 2, ⟨2, 0, 0⟩, 4, [], false, false⟩

def sampleEntry : CacheEntry := ⟨"u", "mu", "B", sampleResponse, 0, 0⟩

def otherEntry : CacheEntry := ⟨"other", "mo", "B2", sampleResponse2, 0, 0⟩

def idHash : String → String := fun s => s

def errModel : SentimentModel := fun _ => Except.error ()

def okModel : SentimentModel := fun _ => Except.ok ("POS", 1)

/-! ### Claim theorems -/

/-- Claim C2: for every extraction run with a fresh scraper instance and any
page content, the returned record list never exceeds the limit, and the scroll
loop exits through its own conditions (limit reached or `max_retries`
stagnant iterations) within an iteration budget independent of the page, even
if the page offers unbounded content. -/
theorem scrape_respects_limit_and_terminates (env : PageEnv) (u : String) (m : Nat) :
    (scrape (mkScraper u m) env).1.length ≤ m ∧
    (scrapeLoopF (mkCfg env (mkScraper u m)) (fuelFor m) 0 [] [] 0 0).completed = true ∧
    (scrapeLoopF (mkCfg env (mkScraper u m)) (fuelFor m) 0 [] [] 0 0).iters ≤ 7 * m + 5 := by
  have hmax : (mkCfg env (mkScraper u m)).maxR = m := rfl
  have hM : loopMeasure (mkCfg env (mkScraper u m)).maxR 0 0 0 = 7 * m + 5 := by
    simp [loopMeasure, hmax]
    omega
  have hrun := scrapeLoopF_completes (mkCfg env (mkScraper u m)) (fuelFor m) 0 [] [] 0 0
    (by omega) (Or.inl rfl)
    (by simp only [List.length_nil]; rw [hM]; unfold fuelFor; omega)
  refine ⟨?_, ?_, ?_⟩
  · unfold scrape
    split
    · simp [mkScraper]
    · split
      · simp
      · have := scrapeLoopF_length_le (mkCfg env (mkScraper u m)) (fuelFor m) 0
          (mkScraper u m).reviews_data [] 0 0 (by simp [mkScraper, hmax])
        simpa [mkScraper, hmax] using this
  · simpa using hrun.1
  · have := hrun.2
    simp only [List.length_nil] at this
    omega

/-- Claim C3: within one extraction run from a fresh instance, the seen-set of
text hashes stays duplicate-free and grows in lockstep with the retained
records, so each distinct rendered-text content yields exactly one record;
and enumerating a block whose text hash was already seen changes nothing, no
matter how often it reappears. -/
theorem scrape_dedup_exactly_once (env : PageEnv) (u : String) (m : Nat) :
    (scrapeLoopF (mkCfg env (mkScraper u m)) (fuelFor m) 0 [] [] 0 0).seen.Nodup ∧
    (scrapeLoopF (mkCfg env (mkScraper u m)) (fuelFor m) 0 [] [] 0 0).seen.length =
      (scrapeLoopF (mkCfg env (mkScraper u m)) (fuelFor m) 0 [] [] 0 0).recs.length ∧
    ∀ (el : Block) (rest : List Block) (recs : List Record) (seen : List Int),
      (mkCfg env (mkScraper u m)).hsh el.innerText ∈ seen →
      processElems (mkCfg env (mkScraper u m)) (el :: rest) recs seen =
        processElems (mkCfg env (mkScraper u m)) rest recs seen := by
  have h := scrapeLoopF_seen (mkCfg env (mkScraper u m)) (fuelFor m) 0 [] [] 0 0 (by simp)
  refine ⟨h.1, ?_, ?_⟩
  · have := h.2
    simp only [List.length_nil] at this
    omega
  · intro el rest recs seen hmem
    exact processElems_skip _ el rest recs seen hmem

/-- Witness for C3 at concrete inputs: the dedup set of a concrete run is
duplicate-free, and re-enumerating a block whose hash is already seen is a
no-op. -/
theorem scrape_dedup_exactly_once_witness :
    (scrapeLoopF (mkCfg sampleEnv (mkScraper "u" 3)) (fuelFor 3) 0 [] [] 0 0).seen.Nodup ∧
    processElems (mkCfg sampleEnv (mkScraper "u" 3)) [sampleBlock] [] [(10 : Int)] =
      processElems (mkCfg sampleEnv (mkScraper "u" 3)) [] [] [(10 : Int)] :=
  ⟨(scrape_dedup_exactly_once sampleEnv "u" 3).1,
   (scrape_dedup_exactly_once sampleEnv "u" 3).2.2 sampleBlock [] [] [10] (by decide)⟩

/-- Claim C7: the rating parser yields 4.5 on `"4,5 estrellas"`, 3.0 on
`"3 stars"`, and 0 both for labels without a numeric token and for an absent
star element. -/
theorem rating_parser_cases :
    extract_rating (some "4,5 estrellas") = 4.5 ∧
    extract_rating (some "3 stars") = 3 ∧
    (∀ aria : String, (∀ c ∈ aria.toList, c.isDigit = false) →
      extract_rating (some aria) = 0) ∧
    extract_rating none = 0 := by
  refine ⟨?_, rfl, ?_, rfl⟩
  · have h : extract_rating (some "4,5 estrellas") =
        ((4 : Nat) : Rat) + ((5 : Nat) : Rat) / (10 : Rat) ^ (1 : Nat) := rfl
    rw [h]
    norm_num
  · intro aria hnd
    simp only [extract_rating]
    rw [findNum_eq_none aria.toList hnd]

/-- Witness for C7's universal part at a concrete digit-free label. -/
theorem rating_parser_cases_witness : extract_rating (some "no stars here") = 0 :=
  rating_parser_cases.2.2.1 "no stars here" (by decide)

/-- Counterexample to C9 as stated: handing a record to the enrichment step
does change it — `analyze` adds the `sentiment` and `confidence` fields, so
the returned record differs from the extracted one. -/
theorem record_immutability_counterexample :
    (analyze errModel [shortRecord]).1.reviews ≠ [shortRecord] := by decide

/-- Claim C9 (amended): downstream enrichment never modifies or removes any
extraction field of any record (business name, username, rating, text, source,
capture date); it only adds the `sentiment` and `confidence` fields. -/
theorem enrichment_preserves_extraction_fields (predict : SentimentModel)
    (l : List Record) : List.Forall₂ SameCore l (analyze predict l).1.reviews := by
  obtain ⟨⟨t, ht, hf⟩, _⟩ := analyze_foldl_spec predict l ⟨[], ⟨0, 0, 0⟩, 0, 0, 0⟩
  have h2 : (analyze predict l).1.reviews = t := by
    simp only [analyze]
    rw [ht]
    simp
  rw [h2]
  exact hf

/-- Counterexample to C10 as stated: a first call accumulates records into
`reviews_data`, yet a second call on the same instance in which the review
container never materializes returns an empty list that does not contain
them. -/
theorem second_call_counterexample :
    (scrape (scrape (mkScraper "u" 3) sampleEnv).2 sampleEnvNoPanel).1 = [] ∧
    (scrape (mkScraper "u" 3) sampleEnv).2.reviews_data ≠ [] := by
  constructor
  · rfl
  · decide

/-- Claim C10 (amended): `reviews_data` persists across `scrape` calls on one
instance.  When the review container materializes, the returned list extends
the previously accumulated records, the instance keeps exactly the returned
list, and prior records count against the call's limit (a call whose prior
records already meet the limit appends nothing).  When the container never
materializes, the call returns an empty list while `reviews_data` still holds
the prior records. -/
theorem reviews_data_persists (s : Scraper) (env : PageEnv)
    (hcrash : env.navCrash = false) :
    (env.containerAppears = true →
      (∃ t, (scrape s env).1 = s.reviews_data ++ t) ∧
      (scrape s env).2.reviews_data = (scrape s env).1 ∧
      (s.reviews_data.length ≤ s.max_reviews →
        (scrape s env).1.length ≤ s.max_reviews) ∧
      (s.max_reviews ≤ s.reviews_data.length → (scrape s env).1 = s.reviews_data)) ∧
    (env.containerAppears = false →
      (scrape s env).1 = [] ∧ (scrape s env).2.reviews_data = s.reviews_data) := by
  constructor
  · intro hc
    have hscr : scrape s env =
        ((scrapeLoopF (mkCfg env s) (fuelFor s.max_reviews) 0 s.reviews_data [] 0 0).recs,
         { s with reviews_data :=
            (scrapeLoopF (mkCfg env s) (fuelFor s.max_reviews) 0 s.reviews_data [] 0 0).recs }) := by
      simp [scrape, hcrash, hc]
    refine ⟨?_, ?_, ?_, ?_⟩
    · obtain ⟨t, ht⟩ := scrapeLoopF_extends (mkCfg env s) (fuelFor s.max_reviews) 0
        s.reviews_data [] 0 0
      exact ⟨t, by rw [hscr]; exact ht⟩
    · rw [hscr]
    · intro hle
      rw [hscr]
      exact scrapeLoopF_length_le (mkCfg env s) (fuelFor s.max_reviews) 0
        s.reviews_data [] 0 0 hle
    · intro hge
      rw [hscr]
      have hfuel : fuelFor s.max_reviews = (7 * s.max_reviews + 6) + 1 := by
        unfold fuelFor
        omega
      rw [hfuel]
      exact scrapeLoopF_stop (mkCfg env s) (7 * s.max_reviews + 6) 0
        s.reviews_data [] 0 0 hge
  · intro hc
    constructor <;> simp [scrape, hcrash, hc]

/-- Witness for C10 (amended) at concrete inputs: with prior records and a
materializing container the result extends them; with no container the result
is empty. -/
theorem reviews_data_persists_witness :
    (∃ t, (scrape ⟨"u", 3, [sampleRecord]⟩ sampleEnv).1 = [sampleRecord] ++ t) ∧
    (scrape ⟨"u", 3, [sampleRecord]⟩ sampleEnvNoPanel).1 = [] :=
  ⟨((reviews_data_persists ⟨"u", 3, [sampleRecord]⟩ sampleEnv rfl).1 rfl).1,
   ((reviews_data_persists ⟨"u", 3, [sampleRecord]⟩ sampleEnvNoPanel rfl).2 rfl).1⟩

/-- Claim C4: with `forceUpdate = false` and an existing cache entry for the
request's key, the pipeline serves the cached payload (with the `cached` flag
set), leaves the store unchanged, and performs zero scraper invocations. -/
theorem cache_hit_short_circuits (md5h : String → String) (predict : SentimentModel)
    (env : PageEnv) (db : DB) (req : AnalysisRequest) (now : Nat) (e : CacheEntry)
    (hforce : req.forceUpdate = false)
    (hhit : get_cached_analysis db (md5h req.maps_url) = some e) :
    analyze_reviews md5h predict env db req now =
      ⟨Except.ok { e.analysis_json with cached := true }, db, 0⟩ := by
  unfold analyze_reviews
  rw [hforce]
  simp [hhit]

/-- Witness for C4: a concrete cache hit is served with zero scraper calls. -/
theorem cache_hit_short_circuits_witness :
    analyze_reviews idHash errModel sampleEnvNoPanel [sampleEntry] ⟨"u", false, 5⟩ 0 =
      ⟨Except.ok { sampleEntry.analysis_json with cached := true }, [sampleEntry], 0⟩ :=
  cache_hit_short_circuits idHash errModel sampleEnvNoPanel [sampleEntry]
    ⟨"u", false, 5⟩ 0 sampleEntry rfl rfl

/-- The `{**entry.analysis_json, "cached": True, "fallback_mode": True}` merge
(api.py:145): only the two serving flags are overridden. -/
def fallbackMerge (r : Response) : Response :=
  { r with cached := true, fallback_mode := true }

/-- Claim C5: when the fresh extraction yields zero records and a same-key
cache entry exists, the pipeline answers in same-key-fallback mode
(`fallback_mode = true`), and the payload it returns is the stored entry's
payload verbatim — only the two serving flags are overridden. -/
theorem empty_scrape_same_key_fallback (md5h : String → String) (predict : SentimentModel)
    (env : PageEnv) (db : DB) (req : AnalysisRequest) (now : Nat) (e : CacheEntry)
    (hforce : req.forceUpdate = true)
    (hempty : (scrape (mkScraper req.maps_url req.limit) env).1 = [])
    (hhit : get_cached_analysis db (md5h req.maps_url) = some e) :
    analyze_reviews md5h predict env db req now =
      ⟨Except.ok (fallbackMerge e.analysis_json), db, 1⟩ ∧
    (fallbackMerge e.analysis_json).business_name = e.analysis_json.business_name ∧
    (fallbackMerge e.analysis_json).total_reviews = e.analysis_json.total_reviews ∧
    (fallbackMerge e.analysis_json).sentiment_summary = e.analysis_json.sentiment_summary ∧
    (fallbackMerge e.analysis_json).average_rating = e.analysis_json.average_rating ∧
    (fallbackMerge e.analysis_json).reviews = e.analysis_json.reviews ∧
    (fallbackMerge e.analysis_json).fallback_mode = true := by
  refine ⟨?_, rfl, rfl, rfl, rfl, rfl, rfl⟩
  unfold analyze_reviews
  rw [hforce]
  simp [hempty, hhit, fallbackMerge]

/-- Witness for C5: a concrete empty extraction with a same-key entry is
served from that entry in fallback mode. -/
theorem empty_scrape_same_key_fallback_witness :
    analyze_reviews idHash errModel sampleEnvNoPanel [sampleEntry] ⟨"u", true, 5⟩ 0 =
      ⟨Except.ok (fallbackMerge sampleEntry.analysis_json), [sampleEntry], 1⟩ :=
  (empty_scrape_same_key_fallback idHash errModel sampleEnvNoPanel [sampleEntry]
    ⟨"u", true, 5⟩ 0 sampleEntry rfl rfl rfl).1

/-- Counterexample to C1 as stated: the store holds an entry (under another
key), fresh extraction yields zero records, the same-key lookup misses — and
the pipeline surfaces the terminal not-found failure instead of serving the
existing entry as a `FALLBACK_ANY` result.  The code has no last-resort
any-entry tier. -/
theorem no_fallback_any_tier_counterexample :
    analyze_reviews idHash errModel sampleEnvNoPanel [otherEntry] ⟨"u", true, 5⟩ 0 =
      ⟨Except.error ApiError.notFound, [otherEntry], 1⟩ ∧
    ([otherEntry] : DB) ≠ ([] : DB) := by
  exact ⟨rfl, by decide⟩

/-- Claim C1 (amended): when fresh extraction yields zero records the pipeline
attempts only a same-key cache lookup: a hit is served in fallback mode, and a
miss surfaces the terminal not-found failure regardless of any other entries
in the store — there is no `FALLBACK_ANY` tier. -/
theorem empty_scrape_only_same_key_tier (md5h : String → String)
    (predict : SentimentModel) (env : PageEnv) (db : DB) (req : AnalysisRequest) (now : Nat)
    (hreach : req.forceUpdate = true ∨ get_cached_analysis db (md5h req.maps_url) = none)
    (hempty : (scrape (mkScraper req.maps_url req.limit) env).1 = []) :
    (∀ e, get_cached_analysis db (md5h req.maps_url) = some e →
      analyze_reviews md5h predict env db req now =
        ⟨Except.ok (fallbackMerge e.analysis_json), db, 1⟩) ∧
    (get_cached_analysis db (md5h req.maps_url) = none →
      analyze_reviews md5h predict env db req now =
        ⟨Except.error ApiError.notFound, db, 1⟩) := by
  constructor
  · intro e hhit
    have hforce : req.forceUpdate = true := by
      rcases hreach with hf | hmiss
      · exact hf
      · rw [hmiss] at hhit
        exact absurd hhit (by simp)
    unfold analyze_reviews
    rw [hforce]
    simp [hempty, hhit, fallbackMerge]
  · intro hmiss
    unfold analyze_reviews
    cases hf2 : req.forceUpdate <;> simp [hmiss, hempty]

/-- Witness for C1 (amended): a concrete empty extraction over an empty store
surfaces the terminal not-found failure. -/
theorem empty_scrape_only_same_key_tier_witness :
    analyze_reviews idHash errModel sampleEnvNoPanel [] ⟨"u", true, 5⟩ 0 =
      ⟨Except.error ApiError.notFound, [], 1⟩ :=
  (empty_scrape_only_same_key_tier idHash errModel sampleEnvNoPanel []
    ⟨"u", true, 5⟩ 0 (Or.inl rfl) rfl).2 rfl

lemma summaryCount_POS (s : Summary) : summaryCount "POS" s = s.POS := rfl

lemma summaryCount_NEG (s : Summary) : summaryCount "NEG" s = s.NEG := rfl

lemma summaryCount_NEU (s : Summary) : summaryCount "NEU" s = s.NEU := rfl

/-- Claim C6: a review text of length at most 2 is classified `NEU` with
confidence 1.0 without invoking the model; a text on which the model raises is
labelled `ERROR` with confidence 0.0 and bumps no summary bucket; and each of
the three summary buckets counts exactly the records carrying its own label,
so `ERROR` records are never folded into them. -/
theorem nlp_short_text_error_and_buckets (predict : SentimentModel) (r : Record)
    (l : List Record) :
    (r.review_text.length ≤ 2 →
      (analyze predict [r]).1.reviews =
        [{ r with sentiment := some "NEU", confidence := some 1 }] ∧
      (analyze predict [r]).2 = 0) ∧
    (∀ e : Unit, 2 < r.review_text.length → predict r.review_text = Except.error e →
      (analyze predict [r]).1.reviews =
        [{ r with sentiment := some "ERROR", confidence := some 0 }] ∧
      (analyze predict [r]).1.sentiment_summary = ⟨0, 0, 0⟩) ∧
    ((analyze predict l).1.sentiment_summary.POS =
        (analyze predict l).1.reviews.countP (fun x => x.sentiment == some "POS") ∧
      (analyze predict l).1.sentiment_summary.NEG =
        (analyze predict l).1.reviews.countP (fun x => x.sentiment == some "NEG") ∧
      (analyze predict l).1.sentiment_summary.NEU =
        (analyze predict l).1.reviews.countP (fun x => x.sentiment == some "NEU")) := by
  refine ⟨?_, ?_, ?_⟩
  · intro hlen
    have h2 : ¬ 2 < r.review_text.length := by omega
    have hs := analyzeStep_short predict ⟨[], ⟨0, 0, 0⟩, 0, 0, 0⟩ r h2
    constructor
    · simp only [analyze, List.foldl_cons, List.foldl_nil]
      rw [hs.1]
      simp
    · simp only [analyze, List.foldl_cons, List.foldl_nil]
      rw [hs.2.1]
  · intro e hlen hp
    have hs := analyzeStep_error predict ⟨[], ⟨0, 0, 0⟩, 0, 0, 0⟩ r e hlen hp
    constructor
    · simp only [analyze, List.foldl_cons, List.foldl_nil]
      rw [hs.1]
      simp
    · simp only [analyze, List.foldl_cons, List.foldl_nil]
      rw [hs.2.2]
  · obtain ⟨_, hsum⟩ := analyze_foldl_spec predict l ⟨[], ⟨0, 0, 0⟩, 0, 0, 0⟩
    have hP := hsum "POS" (Or.inl rfl)
    have hN := hsum "NEG" (Or.inr (Or.inl rfl))
    have hU := hsum "NEU" (Or.inr (Or.inr rfl))
    simp only [summaryCount_POS, summaryCount_NEG, summaryCount_NEU, List.countP_nil]
      at hP hN hU
    simp only [analyze]
    refine ⟨?_, ?_, ?_⟩ <;> omega

/-- Witness for C6 at a concrete model and records: an empty text is served
`NEU`/1.0 with zero model calls, and a raising model yields an `ERROR`/0.0
record outside every summary bucket. -/
theorem nlp_short_text_error_and_buckets_witness :
    ((analyze errModel [shortRecord]).1.reviews =
        [{ shortRecord with sentiment := some "NEU", confidence := some 1 }] ∧
      (analyze errModel [shortRecord]).2 = 0) ∧
    ((analyze errModel [longRecord]).1.reviews =
        [{ longRecord with sentiment := some "ERROR", confidence := some 0 }] ∧
      (analyze errModel [longRecord]).1.sentiment_summary = ⟨0, 0, 0⟩) :=
  ⟨(nlp_short_text_error_and_buckets errModel shortRecord []).1 (by decide),
   (nlp_short_text_error_and_buckets errModel longRecord []).2.1 () (by decide) rfl⟩

/-- Claim C8: an upsert followed by a same-key lookup returns the stored
payload; a second upsert for the key replaces the payload and advances
`updated_at`; and the `url_hash` column stays duplicate-free throughout, so
the store holds at most one row per key. -/
theorem cache_upsert_roundtrip (db : DB) (k m b : String) (p1 p2 : Response) (t1 t2 : Nat)
    (hnodup : (db.map (fun e => e.url_hash)).Nodup) (ht : t1 < t2) :
    ∃ e1 e2,
      get_cached_analysis (save_analysis db k m b p1 t1) k = some e1 ∧
      e1.analysis_json = p1 ∧ e1.updated_at = t1 ∧
      get_cached_analysis (save_analysis (save_analysis db k m b p1 t1) k m b p2 t2) k =
        some e2 ∧
      e2.analysis_json = p2 ∧ e2.updated_at = t2 ∧ e1.updated_at < e2.updated_at ∧
      ((save_analysis db k m b p1 t1).map (fun e => e.url_hash)).Nodup ∧
      ((save_analysis (save_analysis db k m b p1 t1) k m b p2 t2).map
        (fun e => e.url_hash)).Nodup := by
  obtain ⟨e1, h1, hj1, hu1⟩ := get_save_analysis db k m b p1 t1
  obtain ⟨e2, h2, hj2, hu2⟩ := get_save_analysis (save_analysis db k m b p1 t1) k m b p2 t2
  have hn1 := save_analysis_nodup db k m b p1 t1 hnodup
  have hn2 := save_analysis_nodup (save_analysis db k m b p1 t1) k m b p2 t2 hn1
  exact ⟨e1, e2, h1, hj1, hu1, h2, hj2, hu2, by omega, hn1, hn2⟩

/-- Witness for C8 on a concrete store, keys, payloads and clock values. -/
theorem cache_upsert_roundtrip_witness :
    ∃ e1 e2,
      get_cached_analysis (save_analysis [] "k" "m" "B" sampleResponse 0) "k" = some e1 ∧
      e1.analysis_json = sampleResponse ∧ e1.updated_at = 0 ∧
      get_cached_analysis
        (save_analysis (save_analysis [] "k" "m" "B" sampleResponse 0) "k" "m" "B"
          sampleResponse2 1) "k" = some e2 ∧
      e2.analysis_json = sampleResponse2 ∧ e2.updated_at = 1 ∧
      e1.updated_at < e2.updated_at ∧
      ((save_analysis [] "k" "m" "B" sampleResponse 0).map (fun e => e.url_hash)).Nodup ∧
      ((save_analysis (save_analysis [] "k" "m" "B" sampleResponse 0) "k" "m" "B"
        sampleResponse2 1).map (fun e => e.url_hash)).Nodup :=
  cache_upsert_roundtrip [] "k" "m" "B" sampleResponse sampleResponse2 0 1 (by simp)
    (by omega)

end ModelScrappy
